import Mathlib

/-!
Verification of the Image Import System pipeline (import service, file
processing worker, catalog query) against its natural-language specification.
The definitions below are a shallow embedding of the JavaScript sources:
`src/import-service/service.js`, the worker in `src/frontend/src/App.js`,
and `getImages` in `src/api-gateway/database.js` / `src/api-service/database.js`.
JavaScript values that may be `undefined` are embedded as `Option`;
JavaScript truthiness on strings (`""` and `undefined` are falsy) is made
explicit by the `js*` helpers.
-/

/-- JavaScript template-literal rendering of a possibly-undefined string:
`undefined` interpolates as the text "undefined". -/
def jsStr : Option String → String
  | some s => s
  | none => ("undefined")

/-- JavaScript truthiness of a possibly-undefined string value. -/
def jsTruthyS : Option String → Bool
  | some s => !(s == "")
  | none => false

/-- JavaScript `a || d` for a possibly-undefined string `a` and string default. -/
def jsOrD : Option String → String → String
  | some s, d => if s == "" then d else s
  | none, d => d

/-- JavaScript `a || b` where both operands are possibly-undefined strings. -/
def jsOrS : Option String → Option String → Option String
  | some s, b => if s == "" then b else some s
  | none, b => b

/-- Character-list version of string prefix testing. -/
def listStarts : List Char → List Char → Bool
  | [], _ => true
  | _ :: _, [] => false
  | a :: as, b :: bs => a == b && listStarts as bs

/-- JavaScript `s.startsWith(p)`: `strStartsWith p s` holds when `p` is a
prefix of `s`. -/
def strStartsWith (p s : String) : Bool := listStarts p.data s.data

/-- A file descriptor as returned by the provider listing
(`files(id, name, mimeType, size)` in `service.js`); every field may be
absent in the raw API response. `size` is modelled already parsed. -/
structure FileDescriptor where
  id : Option String
  fileId : Option String
  name : Option String
  mimeType : Option String
  size : Option Nat
deriving DecidableEq

/-- A folder import job dequeued from the folder import queue
(`service.js`, `processFolderJob`). -/
structure FolderJob where
  job_id : String
  folder_id : String
  folder_url : String
  source : String
deriving DecidableEq

/-- One per-file work item pushed to the image task queue
(`service.js` lines 129-138). -/
structure FileTask where
  job_id : String
  folder_id : String
  folder_url : String
  file_id : Option String
  file_name : Option String
  mime_type : Option String
  file_size : Option Nat
  source : String
deriving DecidableEq

/-- A row of the `image_metadata` table as inserted by the worker
(`App.js` lines 644-652 and 662-676). -/
structure MetadataRecord where
  name : String
  google_drive_id : Option String
  dropbox_id : Option String
  size : Nat
  mime_type : String
  storage_path : String
  source : String
deriving DecidableEq

/-- Worker configuration constant `MAX_RETRIES` (`App.js` line 374). -/
def MAX_RETRIES : Nat := 3

/-- Worker configuration constant `RETRY_DELAY_MS` (`App.js` line 375). -/
def RETRY_DELAY_MS : Nat := 5000

/-- Decidable equality for `Except`, needed to evaluate concrete traces. -/
def exceptDecEq {ε α : Type} [DecidableEq ε] [DecidableEq α] :
    (a b : Except ε α) → Decidable (a = b)
  | Except.error a, Except.error b =>
    if h : a = b then Decidable.isTrue (by rw [h])
    else Decidable.isFalse (by intro hc; cases hc; exact h rfl)
  | Except.error _, Except.ok _ => Decidable.isFalse (by intro h; cases h)
  | Except.ok _, Except.error _ => Decidable.isFalse (by intro h; cases h)
  | Except.ok a, Except.ok b =>
    if h : a = b then Decidable.isTrue (by rw [h])
    else Decidable.isFalse (by intro hc; cases hc; exact h rfl)

instance {ε α : Type} [DecidableEq ε] [DecidableEq α] : DecidableEq (Except ε α) :=
  exceptDecEq

/-- Observable trace of one run of a retry loop: the delays slept (in
order), the number of invocations of the wrapped operation, and the final
outcome.  A terminal failure carries the attempt count and the last error. -/
structure RetryOut where
  delays : List Nat
  calls : Nat
  result : Except (Nat × String) Unit
deriving DecidableEq

/-- The retry loop skeleton shared by `processImageTaskWithRetry` and
`saveImageMetadataWithRetry` (`App.js` lines 582-600 and 657-694): run the
operation at attempt numbers `attempt, attempt+1, ...`; on success stop; on
failure at `attempt = retries` surface a terminal failure carrying the
attempt count and the last error, otherwise sleep `delayOf attempt` and
retry.  `fuel` bounds the recursion and is instantiated with `retries` so
that attempts range over `1..retries` exactly as in the source loop. -/
def retryGo (op : Nat → Except String Unit) (delayOf : Nat → Nat) (retries : Nat) :
    Nat → Nat → RetryOut
  | _, 0 => ⟨[], 0, Except.ok ()⟩
  | attempt, fuel+1 =>
    match op attempt with
    | Except.ok _ => ⟨[], 1, Except.ok ()⟩
    | Except.error e =>
      if attempt = retries then ⟨[], 1, Except.error (retries, e)⟩
      else
        let r := retryGo op delayOf retries (attempt+1) fuel
        ⟨delayOf attempt :: r.delays, r.calls + 1, r.result⟩

/-- `saveImageMetadataWithRetry` (`App.js` lines 657-694) viewed through its
retry structure: the insert attempt is abstracted as `op`; the delay before
each retry is the constant `RETRY_DELAY_MS` (line 691). -/
def saveImageMetadataWithRetry (op : Nat → Except String Unit) : RetryOut :=
  retryGo op (fun _ => RETRY_DELAY_MS) MAX_RETRIES 1 MAX_RETRIES

/-- Result of one provider download (`downloadFile` in `App.js`). -/
structure DownloadResult where
  buffer : List Nat
  mimeType : Option String
  size : Nat
deriving DecidableEq

/-- Environment for a single outer attempt of `processImageTask`: the
outcomes of the download, the storage upload, and each catalog-insert
attempt (indexed by inner attempt number). -/
structure AttemptEnv where
  download : Except String DownloadResult
  uploadOk : Except String Unit
  insert : Nat → Except String Unit

/-- Effective mime-type resolution (`App.js` lines 623-626): keep the
provider value when it is truthy and starts with "image/", otherwise fall
back to `task.mime_type || 'image/jpeg'`. -/
def resolveMime : Option String → Option String → String
  | some s, advisory =>
    if !(s == "") && strStartsWith ("image/") s then s
    else jsOrD advisory ("image/jpeg")
  | none, advisory => jsOrD advisory ("image/jpeg")

/-- Effective size resolution (`App.js` lines 629-631): prefer the task's
advisory `file_size` when present and positive. -/
def resolveSize : Option Nat → Nat → Nat
  | some n, providerSize => if 0 < n then n else providerSize
  | none, providerSize => providerSize

/-- Deterministic storage key (`App.js` line 634):
`images/SOURCE/FILE_ID/FILE_NAME`. -/
def storageKey (t : FileTask) : String :=
  ("images/") ++ t.source ++ ("/") ++ jsStr t.file_id ++ ("/") ++ jsStr t.file_name

/-- Storage locator returned by `StorageClient.uploadFile`
(`App.js` lines 449 and 458). -/
def s3Locator (bucket objectName : String) : String :=
  ("s3://") ++ bucket ++ ("/") ++ objectName

/-- The metadata row built by the worker (`App.js` lines 644-652). -/
def mkRecord (t : FileTask) (size : Nat) (mime : String) (path : String) :
    MetadataRecord :=
  ⟨jsStr t.file_name,
   if t.source == "google_drive" then t.file_id else none,
   if t.source == "dropbox" then t.file_id else none,
   size, mime, path, t.source⟩

/-- Observable outcome of one call of `processImageTask`: records actually
written to the catalog, number of catalog-insert executions, number of
upload and download executions, and the result. -/
structure ProcessOut where
  inserted : List MetadataRecord
  insertCalls : Nat
  uploads : Nat
  downloads : Nat
  result : Except String Unit
deriving DecidableEq

/-- `processImageTask` (`App.js` lines 602-655): download, resolve mime and
size, compute the storage key, upload, then insert metadata through the
inner retry wrapper.  An inner terminal failure is rethrown as the message
built at `App.js` line 687. -/
def processImageTask (env : AttemptEnv) (bucket : String) (t : FileTask) :
    ProcessOut :=
  match env.download with
  | Except.error e => ⟨[], 0, 0, 1, Except.error e⟩
  | Except.ok d =>
    let mime := resolveMime d.mimeType t.mime_type
    let size := resolveSize t.file_size d.size
    let objectName := storageKey t
    match env.uploadOk with
    | Except.error e => ⟨[], 0, 1, 1, Except.error e⟩
    | Except.ok _ =>
      let path := s3Locator bucket objectName
      let r := saveImageMetadataWithRetry env.insert
      match r.result with
      | Except.ok _ => ⟨[mkRecord t size mime path], r.calls, 1, 1, Except.ok ()⟩
      | Except.error (n, e) =>
        ⟨[], r.calls, 1, 1,
         Except.error (("Failed to save metadata after ") ++ toString n ++ (" attempts: ") ++ e)⟩

/-- Per-task environment: one `AttemptEnv` for each outer attempt. -/
structure TaskEnv where
  attemptEnv : Nat → AttemptEnv

/-- Observable trace of `processImageTaskWithRetry` on one task. -/
structure TaskOut where
  inserted : List MetadataRecord
  insertCalls : Nat
  uploads : Nat
  downloads : Nat
  delays : List Nat
  result : Except (Nat × String) Unit
deriving DecidableEq

/-- The outer retry loop of `processImageTaskWithRetry`
(`App.js` lines 582-600) with the per-attempt pipeline inlined; the delay
before retrying after failed attempt `k` is `RETRY_DELAY_MS * 2 ^ (k-1)`
(line 595). -/
def outerGo (env : TaskEnv) (bucket : String) (t : FileTask) :
    Nat → Nat → TaskOut
  | _, 0 => ⟨[], 0, 0, 0, [], Except.ok ()⟩
  | attempt, fuel+1 =>
    let p := processImageTask (env.attemptEnv attempt) bucket t
    match p.result with
    | Except.ok _ => ⟨p.inserted, p.insertCalls, p.uploads, p.downloads, [], Except.ok ()⟩
    | Except.error e =>
      if attempt = MAX_RETRIES then
        ⟨p.inserted, p.insertCalls, p.uploads, p.downloads, [], Except.error (MAX_RETRIES, e)⟩
      else
        let r := outerGo env bucket t (attempt+1) fuel
        ⟨p.inserted ++ r.inserted, p.insertCalls + r.insertCalls,
         p.uploads + r.uploads, p.downloads + r.downloads,
         (RETRY_DELAY_MS * 2 ^ (attempt - 1)) :: r.delays, r.result⟩

/-- `processImageTaskWithRetry` (`App.js` lines 582-600) applied to one
dequeued task: attempts `1..MAX_RETRIES`. -/
def processImageTaskWithRetryFull (env : TaskEnv) (bucket : String)
    (t : FileTask) : TaskOut :=
  outerGo env bucket t 1 MAX_RETRIES

/-- Worker consumer state: the image task queue and the catalog rows. -/
structure WorkerState where
  tasks : List FileTask
  records : List MetadataRecord
deriving DecidableEq

/-- One iteration of the worker loop (`App.js` lines 728-762): dequeue the
head task (the blocking pop removes it before processing), run the task
through the outer retry wrapper, and continue regardless of the outcome;
nothing is ever pushed back onto a queue. -/
def workerStep (env : TaskEnv) (bucket : String) (st : WorkerState) :
    WorkerState :=
  match st.tasks with
  | [] => st
  | t :: rest =>
    ⟨rest, st.records ++ (processImageTaskWithRetryFull env bucket t).inserted⟩

/-- Repeated worker-loop iterations; the n-th environment drives the n-th
dequeued task. -/
def workerRun (bucket : String) : List TaskEnv → WorkerState → WorkerState
  | [], st => st
  | e :: es, st => workerRun bucket es (workerStep e bucket st)

/-- Eligibility filter used by the drive listing
(`service.js` line 84): `f.mimeType && f.mimeType.startsWith('image/')`. -/
def eligibleImage (f : FileDescriptor) : Bool :=
  match f.mimeType with
  | none => false
  | some s => !(s == "") && strStartsWith ("image/") s

/-- `GoogleDriveClient.listFilesInFolder` (`service.js` lines 59-89): the
raw provider response (all pages concatenated, or a failure) filtered to
image mime types; a provider failure propagates. -/
def googleListFilesInFolder (raw : Except String (List FileDescriptor)) :
    Except String (List FileDescriptor) :=
  match raw with
  | Except.error e => Except.error e
  | Except.ok files => Except.ok (files.filter eligibleImage)

/-- `DropboxClient.listFilesInFolder` (`service.js` lines 95-101):
unconditionally the empty list. -/
def dropboxListFilesInFolder : Except String (List FileDescriptor) :=
  Except.ok []

/-- Source dispatch in `processFolderJob` (`service.js` lines 119-123). -/
def listFilesForJob (job : FolderJob)
    (raw : Except String (List FileDescriptor)) :
    Except String (List FileDescriptor) :=
  if job.source == "dropbox" then dropboxListFilesInFolder
  else googleListFilesInFolder raw

/-- The image task built for one listed file (`service.js` lines 129-138). -/
def toImageTask (job : FolderJob) (f : FileDescriptor) : FileTask :=
  ⟨job.job_id, job.folder_id, job.folder_url,
   jsOrS f.id f.fileId, f.name,
   some (jsOrD f.mimeType ("image/jpeg")), f.size, job.source⟩

/-- `ImportService.processFolderJob` (`service.js` lines 112-150): list the
folder, then build one task per listed file, in listing order; a listing
failure is rethrown. -/
def processFolderJob (job : FolderJob)
    (raw : Except String (List FileDescriptor)) :
    Except String (List FileTask) :=
  match listFilesForJob job raw with
  | Except.error e => Except.error e
  | Except.ok files => Except.ok (files.map (toImageTask job))

/-- Effect of one folder job on the image task queue: on success the built
tasks are pushed (rPush appends at the tail, `service.js` line 141) and the
job completes; on failure the queue is untouched. -/
def runFolderJob (q : List FileTask) (job : FolderJob)
    (raw : Except String (List FileDescriptor)) : List FileTask × Bool :=
  match processFolderJob job raw with
  | Except.ok ts => (q ++ ts, true)
  | Except.error _ => (q, false)

/-- A job waiting on the folder import queue, paired with the provider
listing outcome it will observe. -/
structure PendingJob where
  job : FolderJob
  listing : Except String (List FileDescriptor)

/-- Import service consumer state: folder job queue and image task queue. -/
structure ImportState where
  jobs : List PendingJob
  taskQueue : List FileTask

/-- One iteration of the import service loop (`service.js` lines 182-216):
dequeue the head job, process it, and continue regardless of the outcome;
the job is never re-enqueued and a failure enqueues no tasks. -/
def serviceStep (st : ImportState) : ImportState :=
  match st.jobs with
  | [] => st
  | pj :: rest => ⟨rest, (runFolderJob st.taskQueue pj.job pj.listing).1⟩

/-- Repeated import service loop iterations. -/
def serviceRun : ImportState → Nat → ImportState
  | st, 0 => st
  | st, n+1 => serviceRun (serviceStep st) n

/-- A catalog row as stored in `image_metadata`, with the fields the query
contract depends on; `created_at` is a totally ordered timestamp. -/
structure ImageRow where
  id : Nat
  name : String
  source : String
  created_at : Nat
deriving DecidableEq

/-- "Newer than or equal": the ORDER BY `created_at` DESC relation. -/
def rowNewer (a b : ImageRow) : Prop := b.created_at ≤ a.created_at

instance : DecidableRel rowNewer := fun a b => Nat.decLe b.created_at a.created_at

instance : IsTotal ImageRow rowNewer :=
  ⟨fun a b => Nat.le_total b.created_at a.created_at⟩

instance : IsTrans ImageRow rowNewer :=
  ⟨fun _ _ _ hab hbc => Nat.le_trans hbc hab⟩

/-- The row set selected by the optional source filter: `if (source)` in
`getImages` skips the WHERE clause on a falsy (absent or empty) value
(`api-gateway/database.js` lines 53-56, `api-service/database.js` 28-31). -/
def filteredRows (db : List ImageRow) (source : Option String) :
    List ImageRow :=
  match source with
  | some s => if s == "" then db else db.filter (fun r => r.source == s)
  | none => db

/-- `getImages` as implemented identically in `api-gateway/database.js`
(lines 48-83) and `api-service/database.js` (lines 24-46): rows = matching
rows ordered by `created_at` DESC then windowed by OFFSET/LIMIT; total =
COUNT of matching rows, computed without LIMIT/OFFSET. -/
def getImages (db : List ImageRow) (source : Option String)
    (limit offset : Nat) : List ImageRow × Nat :=
  let filtered := filteredRows db source
  (((List.insertionSort rowNewer filtered).drop offset).take limit,
   filtered.length)

/-- The provider-mime acceptance condition of `App.js` line 624 (the value
is kept when it is truthy and starts with "image/"). -/
def providerMimeOk : Option String → Bool
  | some s => !(s == "") && strStartsWith ("image/") s
  | none => false

/-- Sample task used to instantiate universally quantified theorems. -/
def taskA : FileTask :=
  ⟨"J1", "F1", "http-u", some ("a"), some ("x.jpg"), some ("image/png"),
   some 100, "google_drive"⟩

/-- A second sample task agreeing with `taskA` on source, file id and file
name only. -/
def taskB : FileTask :=
  ⟨"J2", "F9", "http-v", some ("a"), some ("x.jpg"), none, none,
   "google_drive"⟩

lemma pit_inserted_shape (ae : AttemptEnv) (b : String) (t : FileTask) :
    ∀ r ∈ (processImageTask ae b t).inserted,
      ∃ d, ae.download = Except.ok d ∧
        r = mkRecord t (resolveSize t.file_size d.size)
              (resolveMime d.mimeType t.mime_type)
              (s3Locator b (storageKey t)) := by
  intro r hr
  unfold processImageTask at hr
  cases hd : ae.download with
  | error e => simp [hd] at hr
  | ok d =>
    cases hu : ae.uploadOk with
    | error e => simp [hd, hu] at hr
    | ok u =>
      cases hs : (saveImageMetadataWithRetry ae.insert).result with
      | error e =>
        obtain ⟨n, msg⟩ := e
        simp [hd, hu, hs] at hr
      | ok u2 =>
        simp [hd, hu, hs] at hr
        exact ⟨d, rfl, hr⟩

lemma outer_inserted_shape (env : TaskEnv) (b : String) (t : FileTask) :
    ∀ fuel a, ∀ r ∈ (outerGo env b t a fuel).inserted,
      ∃ k d, (env.attemptEnv k).download = Except.ok d ∧
        r = mkRecord t (resolveSize t.file_size d.size)
              (resolveMime d.mimeType t.mime_type)
              (s3Locator b (storageKey t)) := by
  intro fuel
  induction fuel with
  | zero => intro a r hr; simp [outerGo] at hr
  | succ n ih =>
    intro a r hr
    simp only [outerGo] at hr
    cases hp : (processImageTask (env.attemptEnv a) b t).result with
    | ok u =>
      rw [hp] at hr
      simp at hr
      obtain ⟨d, hd, hrec⟩ := pit_inserted_shape (env.attemptEnv a) b t r hr
      exact ⟨a, d, hd, hrec⟩
    | error e =>
      rw [hp] at hr
      by_cases ha : a = MAX_RETRIES
      · subst ha
        simp at hr
        obtain ⟨d, hd, hrec⟩ :=
          pit_inserted_shape (env.attemptEnv MAX_RETRIES) b t r hr
        exact ⟨MAX_RETRIES, d, hd, hrec⟩
      · simp [ha, List.mem_append] at hr
        cases hr with
        | inl hl =>
          obtain ⟨d, hd, hrec⟩ := pit_inserted_shape (env.attemptEnv a) b t r hl
          exact ⟨a, d, hd, hrec⟩
        | inr hrt => exact ih (a+1) r hrt

/-- C7: the storage key computed by the worker is the string
`images/SOURCE/FILE_ID/FILE_NAME`, hence a function of only the task's
source, file id and file name; two tasks agreeing on those three fields get
the same key, and every record the worker writes carries the locator built
from that key regardless of the environment (downloaded bytes, provider
mime, insert outcomes). -/
theorem storageKey_deterministic :
    (∀ t : FileTask, storageKey t =
       ("images/") ++ t.source ++ ("/") ++ jsStr t.file_id ++ ("/") ++
         jsStr t.file_name) ∧
    (∀ t₁ t₂ : FileTask, t₁.source = t₂.source → t₁.file_id = t₂.file_id →
       t₁.file_name = t₂.file_name → storageKey t₁ = storageKey t₂) ∧
    (∀ env b t, ∀ r ∈ (processImageTaskWithRetryFull env b t).inserted,
       r.storage_path = s3Locator b (storageKey t)) := by
  refine ⟨fun t => rfl, ?_, ?_⟩
  · intro t₁ t₂ hs hi hn
    unfold storageKey
    rw [hs, hi, hn]
  · intro env b t r hr
    obtain ⟨k, d, _, hrec⟩ :=
      outer_inserted_shape env b t MAX_RETRIES 1 r hr
    rw [hrec]
    rfl

/-- Witness for C7 at concrete inputs: `taskA` and `taskB` agree on source,
file id and file name and get equal keys. -/
theorem storageKey_deterministic_witness :
    storageKey taskB = storageKey taskA ∧
    storageKey taskA = ("images/google_drive/a/x.jpg") :=
  ⟨storageKey_deterministic.2.1 taskB taskA rfl rfl rfl, by decide⟩

/-- C3: the effective mime type is the provider value when it is present
and begins with "image/"; otherwise the task's advisory mime type when that
is present; otherwise "image/jpeg".  In particular an advisory "image/png"
with provider "application/octet-stream" resolves to "image/png", and every
record the worker writes after a download carries exactly this resolved
value. -/
theorem mime_resolution_spec :
    (∀ pm advisory, providerMimeOk pm = true →
       resolveMime pm advisory = jsStr pm) ∧
    (∀ pm a, providerMimeOk pm = false → a ≠ "" →
       resolveMime pm (some a) = a) ∧
    (∀ pm adv, providerMimeOk pm = false → jsTruthyS adv = false →
       resolveMime pm adv = ("image/jpeg")) ∧
    (resolveMime (some ("application/octet-stream")) (some ("image/png")) =
       ("image/png")) ∧
    (∀ ae b t d, ae.download = Except.ok d →
       ∀ r ∈ (processImageTask ae b t).inserted,
         r.mime_type = resolveMime d.mimeType t.mime_type) := by
  refine ⟨?_, ?_, ?_, by decide, ?_⟩
  · intro pm advisory h
    cases pm with
    | none => simp [providerMimeOk] at h
    | some s =>
      simp only [providerMimeOk] at h
      simp [resolveMime, h, jsStr]
  · intro pm a h ha
    cases pm with
    | none => simp [resolveMime, jsOrD, ha]
    | some s =>
      simp only [providerMimeOk] at h
      simp [resolveMime, h, jsOrD, ha]
  · intro pm adv h hadv
    have hadvD : adv = none ∨ adv = some "" := by
      cases adv with
      | none => exact Or.inl rfl
      | some s =>
        simp only [jsTruthyS, Bool.not_eq_false', beq_iff_eq] at hadv
        exact Or.inr (by rw [hadv])
    cases pm with
    | none =>
      cases hadvD with
      | inl h0 => rw [h0]; decide
      | inr h0 => rw [h0]; decide
    | some s =>
      simp only [providerMimeOk] at h
      cases hadvD with
      | inl h0 => rw [h0]; simp [resolveMime, h, jsOrD]
      | inr h0 => rw [h0]; simp [resolveMime, h, jsOrD]
  · intro ae b t d hd r hr
    obtain ⟨d2, hd2, hrec⟩ := pit_inserted_shape ae b t r hr
    rw [hd] at hd2
    cases hd2
    rw [hrec]
    rfl

/-- Witness for C3 at concrete inputs: provider "application/octet-stream"
is rejected in favour of the advisory "image/png"; the record written for
`taskA` under an environment returning that provider mime carries
"image/png". -/
theorem mime_resolution_spec_witness :
    resolveMime (some ("application/octet-stream")) (some ("image/png")) =
      ("image/png") ∧
    resolveMime (some ("image/gif")) (some ("image/png")) = ("image/gif") ∧
    resolveMime none none = ("image/jpeg") := by
  refine ⟨mime_resolution_spec.2.2.2.1, ?_, ?_⟩
  · exact mime_resolution_spec.1 (some ("image/gif")) (some ("image/png"))
      (by decide)
  · exact mime_resolution_spec.2.2.1 none none (by decide) (by decide)

/-- Sample folder job with a Google Drive source. -/
def jobG : FolderJob := ⟨"J1", "F1", "http-f", "google_drive"⟩

/-- Sample folder job with a Dropbox source. -/
def jobD : FolderJob := ⟨"J2", "F2", "http-d", "dropbox"⟩

/-- Sample raw listing: two image files around one non-image file. -/
def dsSample : List FileDescriptor :=
  [⟨some ("a"), none, some ("x.jpg"), some ("image/jpeg"), some 100⟩,
   ⟨some ("b"), none, some ("notes.txt"), some ("text/plain"), some 5⟩,
   ⟨some ("c"), none, some ("y.png"), some ("image/png"), some 200⟩]

/-- C2: when the provider listing succeeds, the Folder Expansion Stage
enqueues one FileTask per descriptor whose mime type begins with "image/",
in listing order, growing the task queue by exactly that count; zero
eligible descriptors enqueue zero tasks and still complete the job as a
success. -/
theorem folder_job_enqueues_eligible (job : FolderJob)
    (ds : List FileDescriptor) (q : List FileTask)
    (hsrc : job.source ≠ "dropbox") :
    runFolderJob q job (Except.ok ds) =
      (q ++ (ds.filter eligibleImage).map (toImageTask job), true) ∧
    (runFolderJob q job (Except.ok ds)).1.length =
      q.length + (ds.filter eligibleImage).length ∧
    (ds.filter eligibleImage = [] →
      runFolderJob q job (Except.ok ds) = (q, true)) := by
  have hb : (job.source == "dropbox") = false := by
    simp [beq_iff_eq]
    exact hsrc
  have hmain : runFolderJob q job (Except.ok ds) =
      (q ++ (ds.filter eligibleImage).map (toImageTask job), true) := by
    simp [runFolderJob, processFolderJob, listFilesForJob, hb,
      googleListFilesInFolder]
  refine ⟨hmain, ?_, ?_⟩
  · rw [hmain]
    simp
  · intro h0
    rw [hmain, h0]
    simp

/-- Witness for C2: the sample listing has two eligible files among three,
so exactly two tasks are appended, in listing order. -/
theorem folder_job_enqueues_eligible_witness :
    runFolderJob [] jobG (Except.ok dsSample) =
      ([toImageTask jobG (dsSample.get ⟨0, by decide⟩),
        toImageTask jobG (dsSample.get ⟨2, by decide⟩)], true) ∧
    (runFolderJob [] jobG (Except.ok dsSample)).1.length = 2 := by
  have h := folder_job_enqueues_eligible jobG dsSample [] (by decide)
  refine ⟨?_, ?_⟩
  · rw [h.1]; decide
  · rw [h.2.1]; decide

/-- C6: a failed provider listing makes the Folder Expansion Stage abandon
the job: no task is enqueued, the job is not re-enqueued, the listing is
not retried (the job leaves the state entirely), and the consuming loop
continues with the remaining jobs. -/
theorem listing_failure_abandons_job (job : FolderJob) (e : String)
    (q : List FileTask) (rest : List PendingJob)
    (hsrc : job.source ≠ "dropbox") :
    runFolderJob q job (Except.error e) = (q, false) ∧
    serviceStep ⟨⟨job, Except.error e⟩ :: rest, q⟩ = ⟨rest, q⟩ ∧
    (∀ n, serviceRun ⟨⟨job, Except.error e⟩ :: rest, q⟩ (n+1) =
            serviceRun ⟨rest, q⟩ n) := by
  have hb : (job.source == "dropbox") = false := by
    simp [beq_iff_eq]
    exact hsrc
  have hmain : runFolderJob q job (Except.error e) = (q, false) := by
    simp [runFolderJob, processFolderJob, listFilesForJob, hb,
      googleListFilesInFolder]
  have hstep : serviceStep ⟨⟨job, Except.error e⟩ :: rest, q⟩ = ⟨rest, q⟩ := by
    simp [serviceStep, hmain]
  exact ⟨hmain, hstep, fun n => by simp [serviceRun, hstep]⟩

/-- Witness for C6 at concrete inputs: a bad-folder listing error drops the
job and leaves the task queue empty while the loop moves on. -/
theorem listing_failure_abandons_job_witness :
    runFolderJob [] jobG (Except.error ("bad folder id")) = ([], false) ∧
    serviceStep ⟨[⟨jobG, Except.error ("bad folder id")⟩,
                  ⟨jobG, Except.ok dsSample⟩], []⟩ =
      ⟨[⟨jobG, Except.ok dsSample⟩], []⟩ := by
  have h := listing_failure_abandons_job jobG ("bad folder id") []
    [⟨jobG, Except.ok dsSample⟩] (by decide)
  exact ⟨h.1, h.2.1⟩

/-- C9: a Dropbox folder job always expands to zero tasks — the Dropbox
listing client returns the empty list unconditionally — and the job
completes as a success, not an abandoned job. -/
theorem dropbox_job_enqueues_nothing (job : FolderJob)
    (raw : Except String (List FileDescriptor)) (q : List FileTask)
    (rest : List PendingJob) (hsrc : job.source = "dropbox") :
    processFolderJob job raw = Except.ok [] ∧
    runFolderJob q job raw = (q, true) ∧
    serviceStep ⟨⟨job, raw⟩ :: rest, q⟩ = ⟨rest, q⟩ := by
  have hb : (job.source == "dropbox") = true := by
    simp [beq_iff_eq, hsrc]
  have hp : processFolderJob job raw = Except.ok [] := by
    simp [processFolderJob, listFilesForJob, hb, dropboxListFilesInFolder]
  have hr : runFolderJob q job raw = (q, true) := by
    simp [runFolderJob, hp]
  exact ⟨hp, hr, by simp [serviceStep, hr]⟩

/-- Witness for C9 at concrete inputs: even a raw listing with eligible
image files yields zero tasks for a dropbox job. -/
theorem dropbox_job_enqueues_nothing_witness :
    processFolderJob jobD (Except.ok dsSample) = Except.ok [] ∧
    runFolderJob [] jobD (Except.ok dsSample) = ([], true) := by
  have h := dropbox_job_enqueues_nothing jobD (Except.ok dsSample) [] []
    (by decide)
  exact ⟨h.1, h.2.1⟩

/-- C10: every FileTask the Folder Expansion Stage produces carries a mime
type beginning with "image/": the listing is filtered to image mime types,
the task copies the descriptor's value, and the fallback "image/jpeg" is
itself an image type. -/
theorem enqueued_tasks_image_mime (job : FolderJob)
    (raw : Except String (List FileDescriptor)) (ts : List FileTask)
    (h : processFolderJob job raw = Except.ok ts) :
    ∀ t ∈ ts, ∃ m, t.mime_type = some m ∧
      strStartsWith ("image/") m = true := by
  intro t ht
  unfold processFolderJob listFilesForJob at h
  by_cases hb : (job.source == "dropbox") = true
  · rw [if_pos hb] at h
    simp [dropboxListFilesInFolder] at h
    subst h
    simp at ht
  · rw [if_neg hb] at h
    cases raw with
    | error e => simp [googleListFilesInFolder] at h
    | ok files =>
      simp only [googleListFilesInFolder, Except.ok.injEq] at h
      rw [← h] at ht
      simp only [List.mem_map] at ht
      obtain ⟨f, hf, hft⟩ := ht
      rw [List.mem_filter] at hf
      obtain ⟨_, helig⟩ := hf
      unfold eligibleImage at helig
      cases hm : f.mimeType with
      | none => rw [hm] at helig; simp at helig
      | some s =>
        rw [hm] at helig
        simp only [Bool.and_eq_true, Bool.not_eq_true', beq_eq_false_iff_ne]
          at helig
        refine ⟨s, ?_, helig.2⟩
        rw [← hft]
        simp [toImageTask, hm, jsOrD, helig.1]

/-- Witness for C10 at concrete inputs: both tasks expanded from the sample
listing carry an image mime type. -/
theorem enqueued_tasks_image_mime_witness :
    ∃ m, (toImageTask jobG (dsSample.get ⟨0, by decide⟩)).mime_type = some m ∧
      strStartsWith ("image/") m = true := by
  have h := enqueued_tasks_image_mime jobG (Except.ok dsSample)
    ((dsSample.filter eligibleImage).map (toImageTask jobG)) rfl
  exact h (toImageTask jobG (dsSample.get ⟨0, by decide⟩)) (by decide)

/-- Sample catalog contents for instantiating the query contract. -/
def dbSample : List ImageRow :=
  [⟨1, "x.jpg", "google_drive", 10⟩,
   ⟨2, "y.png", "dropbox", 30⟩,
   ⟨3, "z.gif", "google_drive", 20⟩]

/-- C8: the catalog query returns rows ordered newest-first (descending
`created_at`), restricted to the requested source when a non-empty one is
supplied, windowed by LIMIT and OFFSET over the ordered matching rows, and
a total equal to the number of matching rows regardless of LIMIT and
OFFSET. -/
theorem getImages_query_contract (db : List ImageRow) (src : Option String)
    (limit offset : Nat) :
    List.Sorted rowNewer (getImages db src limit offset).1 ∧
    (∀ s, src = some s → s ≠ "" →
       ∀ r ∈ (getImages db src limit offset).1, r.source = s) ∧
    (getImages db src limit offset).1 =
      ((List.insertionSort rowNewer (filteredRows db src)).drop offset).take
        limit ∧
    (getImages db src limit offset).1.length ≤ limit ∧
    (getImages db src limit offset).2 = (filteredRows db src).length ∧
    (∀ l o, (getImages db src l o).2 = (getImages db src limit offset).2) := by
  have hsub :
      List.Sublist
        (((List.insertionSort rowNewer (filteredRows db src)).drop
            offset).take limit)
        (List.insertionSort rowNewer (filteredRows db src)) :=
    (List.take_sublist _ _).trans (List.drop_sublist _ _)
  refine ⟨?_, ?_, rfl, ?_, rfl, fun l o => rfl⟩
  · exact List.Pairwise.sublist hsub
      (List.sorted_insertionSort rowNewer (filteredRows db src))
  · intro s hs hne r hr
    subst hs
    have hmem : r ∈ List.insertionSort rowNewer (filteredRows db (some s)) :=
      hsub.mem hr
    rw [List.mem_insertionSort] at hmem
    have hne2 : (s == "") = false := by
      simp only [beq_eq_false_iff_ne, ne_eq]
      exact hne
    simp only [filteredRows, hne2, Bool.false_eq_true, if_false] at hmem
    rw [List.mem_filter] at hmem
    exact beq_iff_eq.mp hmem.2
  · simp [getImages, List.length_take]

/-- Witness for C8 at concrete inputs: filtering by "google_drive" on the
sample catalog returns the matching rows newest-first and a total of 2
independent of the window. -/
theorem getImages_query_contract_witness :
    getImages dbSample (some ("google_drive")) 1 0 =
      ([⟨3, "z.gif", "google_drive", 20⟩], 2) ∧
    (getImages dbSample (some ("google_drive")) 1 1).2 = 2 ∧
    (⟨3, "z.gif", "google_drive", 20⟩ : ImageRow).source = ("google_drive") := by
  refine ⟨by decide, ?_, ?_⟩
  · rw [(getImages_query_contract dbSample (some ("google_drive")) 1 0).2.2.2.2.2
        1 1]
    decide
  · exact (getImages_query_contract dbSample (some ("google_drive")) 1 0).2.1
      ("google_drive") rfl (by decide) (⟨3, "z.gif", "google_drive", 20⟩)
      (by decide)

lemma save_calls_le (op : Nat → Except String Unit) :
    (saveImageMetadataWithRetry op).calls ≤ 3 := by
  unfold saveImageMetadataWithRetry MAX_RETRIES
  cases h1 : op 1 with
  | ok u => simp [retryGo, h1]
  | error e1 =>
    cases h2 : op 2 with
    | ok u => simp [retryGo, h1, h2]
    | error e2 =>
      cases h3 : op 3 with
      | ok u => simp [retryGo, h1, h2, h3]
      | error e3 => simp [retryGo, h1, h2, h3]

lemma save_error_all (op : Nat → Except String Unit) (n : Nat) (e : String)
    (h : (saveImageMetadataWithRetry op).result = Except.error (n, e)) :
    (∃ a, op 1 = Except.error a) ∧ (∃ a, op 2 = Except.error a) ∧
      op 3 = Except.error e ∧ n = 3 ∧
      (saveImageMetadataWithRetry op).calls = 3 := by
  unfold saveImageMetadataWithRetry MAX_RETRIES at h ⊢
  cases h1 : op 1 with
  | ok u => simp [retryGo, h1] at h
  | error e1 =>
    cases h2 : op 2 with
    | ok u => simp [retryGo, h1, h2] at h
    | error e2 =>
      cases h3 : op 3 with
      | ok u => simp [retryGo, h1, h2, h3] at h
      | error e3 =>
        simp [retryGo, h1, h2, h3] at h
        exact ⟨⟨e1, rfl⟩, ⟨e2, rfl⟩, by rw [h.2], h.1.symm, by
          simp [retryGo, h1, h2, h3]⟩

lemma save_calls3_first_two (op : Nat → Except String Unit)
    (h : (saveImageMetadataWithRetry op).calls = 3) :
    (∃ a, op 1 = Except.error a) ∧ (∃ a, op 2 = Except.error a) := by
  unfold saveImageMetadataWithRetry MAX_RETRIES at h
  cases h1 : op 1 with
  | ok u => simp [retryGo, h1] at h
  | error e1 =>
    cases h2 : op 2 with
    | ok u => simp [retryGo, h1, h2] at h
    | error e2 => exact ⟨⟨e1, rfl⟩, ⟨e2, rfl⟩⟩

lemma save_delays_const (op : Nat → Except String Unit) :
    (saveImageMetadataWithRetry op).delays =
      List.replicate (saveImageMetadataWithRetry op).delays.length
        RETRY_DELAY_MS := by
  unfold saveImageMetadataWithRetry MAX_RETRIES
  cases h1 : op 1 with
  | ok u => simp [retryGo, h1]
  | error e1 =>
    cases h2 : op 2 with
    | ok u => simp [retryGo, h1, h2, List.replicate]
    | error e2 =>
      cases h3 : op 3 with
      | ok u => simp [retryGo, h1, h2, h3, List.replicate]
      | error e3 => simp [retryGo, h1, h2, h3, List.replicate]

lemma save_terminal (op : Nat → Except String Unit) (e1 e2 e3 : String)
    (h1 : op 1 = Except.error e1) (h2 : op 2 = Except.error e2)
    (h3 : op 3 = Except.error e3) :
    (saveImageMetadataWithRetry op).result =
      Except.error (MAX_RETRIES, e3) := by
  simp [saveImageMetadataWithRetry, MAX_RETRIES, retryGo, h1, h2, h3]

lemma pit_downloads (ae : AttemptEnv) (b : String) (t : FileTask) :
    (processImageTask ae b t).downloads = 1 := by
  unfold processImageTask
  cases hd : ae.download with
  | error e => rfl
  | ok d =>
    cases hu : ae.uploadOk with
    | error e => rfl
    | ok u =>
      cases hs : (saveImageMetadataWithRetry ae.insert).result with
      | error e => obtain ⟨n, msg⟩ := e; simp [hs]
      | ok u2 => simp [hs]

lemma pit_uploads_le (ae : AttemptEnv) (b : String) (t : FileTask) :
    (processImageTask ae b t).uploads ≤ 1 := by
  unfold processImageTask
  cases hd : ae.download with
  | error e => simp
  | ok d =>
    cases hu : ae.uploadOk with
    | error e => simp
    | ok u =>
      cases hs : (saveImageMetadataWithRetry ae.insert).result with
      | error e => obtain ⟨n, msg⟩ := e; simp [hs]
      | ok u2 => simp [hs]

lemma pit_insertCalls_le (ae : AttemptEnv) (b : String) (t : FileTask) :
    (processImageTask ae b t).insertCalls ≤ 3 := by
  unfold processImageTask
  cases hd : ae.download with
  | error e => simp
  | ok d =>
    cases hu : ae.uploadOk with
    | error e => simp
    | ok u =>
      cases hs : (saveImageMetadataWithRetry ae.insert).result with
      | error e => obtain ⟨n, msg⟩ := e; simp [hs, save_calls_le]
      | ok u2 => simp [hs, save_calls_le]

lemma pit_insertCalls_inner (ae : AttemptEnv) (b : String) (t : FileTask)
    (hc : (processImageTask ae b t).insertCalls ≠ 0) :
    (processImageTask ae b t).insertCalls =
      (saveImageMetadataWithRetry ae.insert).calls := by
  unfold processImageTask at hc ⊢
  cases hd : ae.download with
  | error e => rw [hd] at hc; simp at hc
  | ok d =>
    cases hu : ae.uploadOk with
    | error e => rw [hd, hu] at hc; simp at hc
    | ok u =>
      cases hs : (saveImageMetadataWithRetry ae.insert).result with
      | error e => obtain ⟨n, msg⟩ := e; simp [hs]
      | ok u2 => simp [hs]

lemma pit_error_inner_error (ae : AttemptEnv) (b : String) (t : FileTask)
    (e : String) (h : (processImageTask ae b t).result = Except.error e)
    (hc : (processImageTask ae b t).insertCalls ≠ 0) :
    ∃ n msg, (saveImageMetadataWithRetry ae.insert).result =
      Except.error (n, msg) := by
  unfold processImageTask at h hc
  cases hd : ae.download with
  | error e2 => rw [hd] at hc; simp at hc
  | ok d =>
    cases hu : ae.uploadOk with
    | error e2 => rw [hd, hu] at hc; simp at hc
    | ok u =>
      cases hs : (saveImageMetadataWithRetry ae.insert).result with
      | error e2 => obtain ⟨n, msg⟩ := e2; exact ⟨n, msg, rfl⟩
      | ok u2 => simp [hd, hu, hs] at h

lemma pit_error_inserted (ae : AttemptEnv) (b : String) (t : FileTask)
    (e : String) (h : (processImageTask ae b t).result = Except.error e) :
    (processImageTask ae b t).inserted = [] := by
  unfold processImageTask at h ⊢
  cases hd : ae.download with
  | error e2 => simp
  | ok d =>
    cases hu : ae.uploadOk with
    | error e2 => simp
    | ok u =>
      cases hs : (saveImageMetadataWithRetry ae.insert).result with
      | error e2 => obtain ⟨n, msg⟩ := e2; simp [hd, hu, hs]
      | ok u2 => simp [hd, hu, hs] at h

lemma outer_error_inserted (env : TaskEnv) (b : String) (t : FileTask) :
    ∀ fuel a x, (outerGo env b t a fuel).result = Except.error x →
      (outerGo env b t a fuel).inserted = [] := by
  intro fuel
  induction fuel with
  | zero => intro a x h; simp [outerGo] at h
  | succ n ih =>
    intro a x h
    simp only [outerGo] at h ⊢
    cases hp : (processImageTask (env.attemptEnv a) b t).result with
    | ok u => simp only [hp] at h; exact absurd h (by simp)
    | error e =>
      simp only [hp] at h ⊢
      by_cases ha : a = MAX_RETRIES
      · rw [if_pos ha] at h ⊢
        exact pit_error_inserted _ b t e hp
      · rw [if_neg ha] at h ⊢
        simp only [List.append_eq_nil]
        exact ⟨pit_error_inserted _ b t e hp, ih (a+1) x h⟩

lemma outer_terminal (env : TaskEnv) (b : String) (t : FileTask)
    (e1 e2 e3 : String)
    (h1 : (processImageTask (env.attemptEnv 1) b t).result = Except.error e1)
    (h2 : (processImageTask (env.attemptEnv 2) b t).result = Except.error e2)
    (h3 : (processImageTask (env.attemptEnv 3) b t).result = Except.error e3) :
    (processImageTaskWithRetryFull env b t).result =
      Except.error (MAX_RETRIES, e3) := by
  simp [processImageTaskWithRetryFull, outerGo, MAX_RETRIES, h1, h2, h3]

lemma outer_delays (env : TaskEnv) (b : String) (t : FileTask) :
    (processImageTaskWithRetryFull env b t).delays =
      List.take (processImageTaskWithRetryFull env b t).delays.length
        [RETRY_DELAY_MS * 2 ^ 0, RETRY_DELAY_MS * 2 ^ 1] := by
  unfold processImageTaskWithRetryFull
  cases hp1 : (processImageTask (env.attemptEnv 1) b t).result with
  | ok u => simp [outerGo, hp1, MAX_RETRIES]
  | error e1 =>
    cases hp2 : (processImageTask (env.attemptEnv 2) b t).result with
    | ok u => simp [outerGo, hp1, hp2, MAX_RETRIES]
    | error e2 =>
      cases hp3 : (processImageTask (env.attemptEnv 3) b t).result with
      | ok u => simp [outerGo, hp1, hp2, hp3, MAX_RETRIES]
      | error e3 => simp [outerGo, hp1, hp2, hp3, MAX_RETRIES]

/-- C1 counterexample: the claim says BOTH retry call sites sleep
D·2^(k-1) after the k-th failed attempt.  The inner catalog-insert wrapper
actually sleeps the constant base delay: with every insert failing, its
slept delays are [5000, 5000], while the claimed exponential schedule is
[5000, 10000]; the delay after the second failed attempt is 5000, not
5000·2. -/
theorem inner_backoff_not_exponential :
    (saveImageMetadataWithRetry (fun _ => Except.error ("db down"))).delays =
      [RETRY_DELAY_MS, RETRY_DELAY_MS] ∧
    (saveImageMetadataWithRetry (fun _ => Except.error ("db down"))).delays ≠
      [RETRY_DELAY_MS * 2 ^ 0, RETRY_DELAY_MS * 2 ^ 1] := by
  constructor
  · rfl
  · intro h
    have h2 : ([RETRY_DELAY_MS, RETRY_DELAY_MS] : List Nat) =
        [RETRY_DELAY_MS * 2 ^ 0, RETRY_DELAY_MS * 2 ^ 1] := by
      rw [← h]
      rfl
    simp [RETRY_DELAY_MS] at h2

/-- C1 (amended): with maximum attempt count A = MAX_RETRIES = 3 and base
delay D = RETRY_DELAY_MS, the OUTER wrapper sleeps D·2^(k-1) after the k-th
failed attempt while the INNER catalog-insert wrapper sleeps the constant D
after every failed attempt; for both wrappers, after 3 failed attempts a
terminal failure carrying the attempt count and the last error is
surfaced. -/
theorem retry_policy_amended (env : TaskEnv) (b : String) (t : FileTask)
    (op : Nat → Except String Unit) :
    (processImageTaskWithRetryFull env b t).delays =
      List.take (processImageTaskWithRetryFull env b t).delays.length
        [RETRY_DELAY_MS * 2 ^ 0, RETRY_DELAY_MS * 2 ^ 1] ∧
    (saveImageMetadataWithRetry op).delays =
      List.replicate (saveImageMetadataWithRetry op).delays.length
        RETRY_DELAY_MS ∧
    (∀ e1 e2 e3,
       (processImageTask (env.attemptEnv 1) b t).result = Except.error e1 →
       (processImageTask (env.attemptEnv 2) b t).result = Except.error e2 →
       (processImageTask (env.attemptEnv 3) b t).result = Except.error e3 →
       (processImageTaskWithRetryFull env b t).result =
         Except.error (MAX_RETRIES, e3)) ∧
    (∀ e1 e2 e3, op 1 = Except.error e1 → op 2 = Except.error e2 →
       op 3 = Except.error e3 →
       (saveImageMetadataWithRetry op).result =
         Except.error (MAX_RETRIES, e3)) :=
  ⟨outer_delays env b t, save_delays_const op,
   fun e1 e2 e3 h1 h2 h3 => outer_terminal env b t e1 e2 e3 h1 h2 h3,
   fun e1 e2 e3 h1 h2 h3 => save_terminal op e1 e2 e3 h1 h2 h3⟩

/-- Attempt environment in which download and upload succeed and every
catalog insert fails. -/
def allFailAttempt : AttemptEnv :=
  ⟨Except.ok ⟨[7], some ("image/png"), 10⟩, Except.ok (),
   fun _ => Except.error ("duplicate key")⟩

/-- Task environment in which every outer attempt is `allFailAttempt`. -/
def allFailTaskEnv : TaskEnv := ⟨fun _ => allFailAttempt⟩

/-- Witness for the amended C1: with every insert failing, the outer
wrapper surfaces the terminal failure carrying attempt count 3 and the last
error, and the inner wrapper surfaces attempt count 3 with the raw insert
error. -/
theorem retry_policy_amended_witness :
    (processImageTaskWithRetryFull allFailTaskEnv ("images") taskA).result =
      Except.error (MAX_RETRIES,
        ("Failed to save metadata after 3 attempts: duplicate key")) ∧
    (saveImageMetadataWithRetry (fun _ =>
        Except.error ("duplicate key"))).result =
      Except.error (MAX_RETRIES, ("duplicate key")) := by
  have h := retry_policy_amended allFailTaskEnv ("images") taskA
    (fun _ => Except.error ("duplicate key"))
  exact ⟨h.2.2.1 _ _ _ rfl rfl rfl, h.2.2.2 _ _ _ rfl rfl rfl⟩

/-- C4: when all three outer attempts on a task fail, the worker creates
zero MetadataRecords for it, removes it without re-enqueueing it anywhere,
and the worker loop goes on to dequeue and process the remaining tasks. -/
theorem task_exhaustion_abandons (env : TaskEnv) (b : String) (t : FileTask)
    (rest : List FileTask) (recs : List MetadataRecord)
    (others : List TaskEnv) (e1 e2 e3 : String)
    (h1 : (processImageTask (env.attemptEnv 1) b t).result = Except.error e1)
    (h2 : (processImageTask (env.attemptEnv 2) b t).result = Except.error e2)
    (h3 : (processImageTask (env.attemptEnv 3) b t).result = Except.error e3) :
    (processImageTaskWithRetryFull env b t).inserted = [] ∧
    workerStep env b ⟨t :: rest, recs⟩ = ⟨rest, recs⟩ ∧
    workerRun b (env :: others) ⟨t :: rest, recs⟩ =
      workerRun b others ⟨rest, recs⟩ := by
  have hres := outer_terminal env b t e1 e2 e3 h1 h2 h3
  have hins : (processImageTaskWithRetryFull env b t).inserted = [] :=
    outer_error_inserted env b t MAX_RETRIES 1 (MAX_RETRIES, e3) hres
  have hstep : workerStep env b ⟨t :: rest, recs⟩ = ⟨rest, recs⟩ := by
    simp [workerStep, hins]
  exact ⟨hins, hstep, by simp [workerRun, hstep]⟩

/-- Witness for C4 at concrete inputs: with every insert failing, the
sample task is dropped, the catalog is untouched, and the loop moves to the
next task. -/
theorem task_exhaustion_abandons_witness :
    workerStep allFailTaskEnv ("images") ⟨[taskA, taskB], []⟩ =
      ⟨[taskB], []⟩ := by
  have h := task_exhaustion_abandons allFailTaskEnv ("images") taskA [taskB]
    [] [] _ _ _ rfl rfl rfl
  exact h.2.1

lemma outer_fields_case1 (env : TaskEnv) (b : String) (t : FileTask) (u : Unit)
    (hp1 : (processImageTask (env.attemptEnv 1) b t).result = Except.ok u) :
    (processImageTaskWithRetryFull env b t).insertCalls =
      (processImageTask (env.attemptEnv 1) b t).insertCalls ∧
    (processImageTaskWithRetryFull env b t).downloads =
      (processImageTask (env.attemptEnv 1) b t).downloads ∧
    (processImageTaskWithRetryFull env b t).uploads =
      (processImageTask (env.attemptEnv 1) b t).uploads := by
  unfold processImageTaskWithRetryFull
  simp [outerGo, hp1, MAX_RETRIES]

lemma outer_fields_case2 (env : TaskEnv) (b : String) (t : FileTask)
    (e1 : String) (u : Unit)
    (hp1 : (processImageTask (env.attemptEnv 1) b t).result = Except.error e1)
    (hp2 : (processImageTask (env.attemptEnv 2) b t).result = Except.ok u) :
    (processImageTaskWithRetryFull env b t).insertCalls =
      (processImageTask (env.attemptEnv 1) b t).insertCalls +
        (processImageTask (env.attemptEnv 2) b t).insertCalls ∧
    (processImageTaskWithRetryFull env b t).downloads =
      (processImageTask (env.attemptEnv 1) b t).downloads +
        (processImageTask (env.attemptEnv 2) b t).downloads ∧
    (processImageTaskWithRetryFull env b t).uploads =
      (processImageTask (env.attemptEnv 1) b t).uploads +
        (processImageTask (env.attemptEnv 2) b t).uploads := by
  unfold processImageTaskWithRetryFull
  simp [outerGo, hp1, hp2, MAX_RETRIES]

lemma outer_fields_case3 (env : TaskEnv) (b : String) (t : FileTask)
    (e1 e2 : String)
    (hp1 : (processImageTask (env.attemptEnv 1) b t).result = Except.error e1)
    (hp2 : (processImageTask (env.attemptEnv 2) b t).result = Except.error e2) :
    (processImageTaskWithRetryFull env b t).insertCalls =
      (processImageTask (env.attemptEnv 1) b t).insertCalls +
        ((processImageTask (env.attemptEnv 2) b t).insertCalls +
          (processImageTask (env.attemptEnv 3) b t).insertCalls) ∧
    (processImageTaskWithRetryFull env b t).downloads =
      (processImageTask (env.attemptEnv 1) b t).downloads +
        ((processImageTask (env.attemptEnv 2) b t).downloads +
          (processImageTask (env.attemptEnv 3) b t).downloads) ∧
    (processImageTaskWithRetryFull env b t).uploads =
      (processImageTask (env.attemptEnv 1) b t).uploads +
        ((processImageTask (env.attemptEnv 2) b t).uploads +
          (processImageTask (env.attemptEnv 3) b t).uploads) := by
  unfold processImageTaskWithRetryFull
  cases hp3 : (processImageTask (env.attemptEnv 3) b t).result with
  | ok u => simp [outerGo, hp1, hp2, hp3, MAX_RETRIES]
  | error e3 => simp [outerGo, hp1, hp2, hp3, MAX_RETRIES]

lemma attempt_all_inserts_fail (ae : AttemptEnv) (b : String) (t : FileTask)
    (e : String) (hres : (processImageTask ae b t).result = Except.error e)
    (hc : (processImageTask ae b t).insertCalls = 3) :
    ∀ i, 1 ≤ i → i ≤ 3 → ∃ a, ae.insert i = Except.error a := by
  have hne : (processImageTask ae b t).insertCalls ≠ 0 := by omega
  obtain ⟨n, msg, hserr⟩ := pit_error_inner_error ae b t e hres hne
  obtain ⟨⟨a1, ha1⟩, ⟨a2, ha2⟩, ha3, _, _⟩ :=
    save_error_all ae.insert n msg hserr
  intro i hi1 hi3
  interval_cases i
  · exact ⟨a1, ha1⟩
  · exact ⟨a2, ha2⟩
  · exact ⟨msg, ha3⟩

/-- Task environment producing exactly nine catalog-insert executions with
a final success: every insert of outer attempts 1 and 2 fails, and in
outer attempt 3 the first two inserts fail while the third succeeds. -/
def nineWithSuccessEnv : TaskEnv :=
  ⟨fun a =>
    ⟨Except.ok ⟨[7], some ("image/png"), 10⟩, Except.ok (),
     fun i =>
       if a == 3 && i == 3 then Except.ok ()
       else Except.error ("deadlock")⟩⟩

/-- C5 counterexample: the claim says 9 insert executions are reached ONLY
when every inner attempt of every outer attempt fails.  In
`nineWithSuccessEnv` the insert count is exactly 9 although the ninth
execution (outer attempt 3, inner attempt 3) succeeds — the task even
completes successfully. -/
theorem nine_inserts_with_success :
    (processImageTaskWithRetryFull nineWithSuccessEnv ("images")
        taskA).insertCalls = 9 ∧
    (nineWithSuccessEnv.attemptEnv 3).insert 3 = Except.ok () ∧
    (processImageTaskWithRetryFull nineWithSuccessEnv ("images")
        taskA).result = Except.ok () := by
  refine ⟨rfl, rfl, rfl⟩

/-- C5 (amended): per task the catalog insert executes at most
3 × 3 = 9 times and the download and upload each at most 3 times (once per
outer attempt); 9 insert executions are reached only when the first eight
all fail — every inner attempt of outer attempts 1 and 2 and the first two
inner attempts of outer attempt 3 — while the ninth may succeed or fail. -/
theorem insert_attempt_budget_amended (env : TaskEnv) (b : String)
    (t : FileTask) :
    (processImageTaskWithRetryFull env b t).insertCalls ≤ 9 ∧
    (processImageTaskWithRetryFull env b t).downloads ≤ 3 ∧
    (processImageTaskWithRetryFull env b t).uploads ≤ 3 ∧
    ((processImageTaskWithRetryFull env b t).insertCalls = 9 →
       (∀ i, 1 ≤ i → i ≤ 3 →
          ∃ a, (env.attemptEnv 1).insert i = Except.error a) ∧
       (∀ i, 1 ≤ i → i ≤ 3 →
          ∃ a, (env.attemptEnv 2).insert i = Except.error a) ∧
       (∃ a, (env.attemptEnv 3).insert 1 = Except.error a) ∧
       (∃ a, (env.attemptEnv 3).insert 2 = Except.error a)) := by
  have hc1 := pit_insertCalls_le (env.attemptEnv 1) b t
  have hc2 := pit_insertCalls_le (env.attemptEnv 2) b t
  have hc3 := pit_insertCalls_le (env.attemptEnv 3) b t
  have hu1 := pit_uploads_le (env.attemptEnv 1) b t
  have hu2 := pit_uploads_le (env.attemptEnv 2) b t
  have hu3 := pit_uploads_le (env.attemptEnv 3) b t
  have hd1 := pit_downloads (env.attemptEnv 1) b t
  have hd2 := pit_downloads (env.attemptEnv 2) b t
  have hd3 := pit_downloads (env.attemptEnv 3) b t
  cases hp1 : (processImageTask (env.attemptEnv 1) b t).result with
  | ok u =>
    obtain ⟨hFc, hFd, hFu⟩ := outer_fields_case1 env b t u hp1
    refine ⟨by omega, by omega, by omega, fun h9 => absurd h9 (by omega)⟩
  | error e1 =>
    cases hp2 : (processImageTask (env.attemptEnv 2) b t).result with
    | ok u =>
      obtain ⟨hFc, hFd, hFu⟩ := outer_fields_case2 env b t e1 u hp1 hp2
      refine ⟨by omega, by omega, by omega, fun h9 => absurd h9 (by omega)⟩
    | error e2 =>
      obtain ⟨hFc, hFd, hFu⟩ := outer_fields_case3 env b t e1 e2 hp1 hp2
      refine ⟨by omega, by omega, by omega, ?_⟩
      intro h9
      have hc1e : (processImageTask (env.attemptEnv 1) b t).insertCalls = 3 :=
        by omega
      have hc2e : (processImageTask (env.attemptEnv 2) b t).insertCalls = 3 :=
        by omega
      have hc3e : (processImageTask (env.attemptEnv 3) b t).insertCalls = 3 :=
        by omega
      have hinner3 :
          (saveImageMetadataWithRetry (env.attemptEnv 3).insert).calls = 3 :=
        by
          rw [← pit_insertCalls_inner (env.attemptEnv 3) b t (by omega)]
          exact hc3e
      obtain ⟨h31, h32⟩ := save_calls3_first_two _ hinner3
      exact ⟨attempt_all_inserts_fail (env.attemptEnv 1) b t e1 hp1 hc1e,
             attempt_all_inserts_fail (env.attemptEnv 2) b t e2 hp2 hc2e,
             h31, h32⟩

/-- Witness for the amended C5: with every insert failing, exactly nine
insert executions happen and in particular the very first insert of outer
attempt 1 is observed to fail. -/
theorem insert_attempt_budget_amended_witness :
    ∃ a, (allFailTaskEnv.attemptEnv 1).insert 1 = Except.error a :=
  ((insert_attempt_budget_amended allFailTaskEnv ("images") taskA).2.2.2
      rfl).1 1 (by decide) (by decide)
